import Mathlib

/-
  Verification development for the `just-cache-it` library (src/index.ts).

  The library has two classes:
  * `CacheValue<T>` — a slot holding `current`/`previous` values, with
    per-slot subscribers, deep-cloning composite values on write, and an
    optional one-shot TTL timer armed in the constructor whose callback is
    `this.update(undefined)`;
  * `CacheIt<T>` — a string-keyed map of `CacheValue` slots with its own
    bare-callback subscriber registry.

  Two complementary shallow embeddings are used:
  * an abstract-value model (`CacheValueState`, `CacheItState`) where values
    are immutable Lean terms — the deep clone performed by `update` is the
    identity on such values — and every method is a function from state to
    state paired with the list of observer callbacks it fires, in order;
  * a small heap model (`Heap`, `JsVal`) that makes object references and
    `lodash.cloneDeep` explicit, used for the aliasing/isolation properties.

  Exception propagation out of `Map.forEach` is modelled separately
  (`notifyNextThrow`, `cacheNotifyThrow`): a handler that throws stops the
  iteration and the exception escapes the mutating call.
-/

namespace CacheItModel

/-- Per-slot subscription handler shape: which of the optional `next` /
`complete` callbacks were supplied (the code invokes them with `?.`). -/
structure SubHandlers where
  hasNext : Bool
  hasComplete : Bool
deriving DecidableEq, Repr

/-- An observer callback fired by a slot, tagged with the subscriber's
registry token (the `Symbol` key of the `subscribers` map). -/
inductive SlotEvent where
  | next (tok : Nat)
  | complete (tok : Nat)
deriving DecidableEq, Repr

/-- State of a `CacheValue<T>` instance: the `value` descriptor
(`current`/`previous`), the `subscribers` map in insertion order, whether a
TTL timer armed in the constructor is still pending, and a counter supplying
fresh `Symbol` tokens. -/
structure CacheValueState (α : Type) where
  current : Option α
  previous : Option α
  subscribers : List (Nat × SubHandlers)
  ttlPending : Bool
  nextToken : Nat
deriving DecidableEq, Repr

/-- Constructor `new CacheValue(ttl?)`: both values start `undefined`; a
timer is armed exactly when a ttl argument was supplied (`ttl != null`). -/
def mkCacheValue (α : Type) (ttl : Option Nat) : CacheValueState α :=
  { current := none, previous := none, subscribers := [], ttlPending := ttl.isSome,
    nextToken := 0 }

/-- Callbacks fired by `notifySubscribers(isComplete?)`: `forEach` over the
subscriber map in insertion order, calling `complete?.()` when `isComplete`
and `next?.(this)` otherwise; a missing callback is skipped. -/
def notifyEvents (isComplete : Bool) (subs : List (Nat × SubHandlers)) : List SlotEvent :=
  subs.filterMap fun p =>
    if isComplete then
      if p.2.hasComplete then some (SlotEvent.complete p.1) else none
    else
      if p.2.hasNext then some (SlotEvent.next p.1) else none

/-- Method `update(value)`: `previous` receives (a deep clone of) the old
`current`, `current` receives (a deep clone of) the argument, then the
subscribers are notified with a `next` event. Cloning is the identity on
immutable model values; aliasing is treated in the heap model below. The
TTL timer is not touched: `ttlPending` is carried over unchanged. -/
def cvUpdate (s : CacheValueState α) (v : Option α) :
    CacheValueState α × List SlotEvent :=
  ({ s with previous := s.current, current := v },
   notifyEvents false s.subscribers)

/-- Method `clear()`: sets both `current` and `previous` to `undefined`,
then notifies subscribers with a `next` event. -/
def cvClear (s : CacheValueState α) : CacheValueState α × List SlotEvent :=
  ({ s with current := none, previous := none },
   notifyEvents false s.subscribers)

/-- The TTL timer callback installed by the constructor: its body is
`this.update(undefined)` (not `this.clear()`); it runs at most once, after
which the timer is spent. -/
def cvFireTtl (s : CacheValueState α) : CacheValueState α × List SlotEvent :=
  let r := cvUpdate s none
  ({ r.1 with ttlPending := false }, r.2)

/-- Method `subscribe(handlers)`: inserts the handlers under a fresh
`Symbol` token and returns that token (the subscription closure captures
both the token and the handlers object). -/
def cvSubscribe (s : CacheValueState α) (h : SubHandlers) :
    CacheValueState α × Nat :=
  ({ s with subscribers := s.subscribers ++ [(s.nextToken, h)],
            nextToken := s.nextToken + 1 },
   s.nextToken)

/-- The `unsubscribe` closure returned by `subscribe`: it first invokes the
captured handlers' `complete?.()` — unconditionally, on every call — and
then deletes the captured token from the map. -/
def cvUnsubscribe (s : CacheValueState α) (h : SubHandlers) (tok : Nat) :
    CacheValueState α × List SlotEvent :=
  ({ s with subscribers := s.subscribers.filter fun p => p.1 ≠ tok },
   if h.hasComplete then [SlotEvent.complete tok] else [])

/-- Method `unsubscribeAll()`: notifies every subscriber's `complete`
callback in insertion order, then clears the registry. -/
def cvUnsubscribeAll (s : CacheValueState α) : CacheValueState α × List SlotEvent :=
  ({ s with subscribers := [] }, notifyEvents true s.subscribers)

/-- Result of the handler-pair form of `unwrapCurrent`/`unwrapPrevious`:
which of the two callbacks ran, and with what argument. -/
inductive UnwrapCall (α : Type) where
  | present (v : α)
  | absent
deriving DecidableEq, Repr

/-- Method `unwrapCurrent()` (no-argument overload): returns the stored
`current` value; no field is assigned and no notification is fired, so the
method yields the unchanged state, an empty event list, and the value. -/
def cvUnwrapCurrent (s : CacheValueState α) :
    (CacheValueState α × List SlotEvent) × Option α :=
  ((s, []), s.current)

/-- Method `unwrapPrevious()` (no-argument overload). -/
def cvUnwrapPrevious (s : CacheValueState α) :
    (CacheValueState α × List SlotEvent) × Option α :=
  ((s, []), s.previous)

/-- Method `unwrapCurrent(handlers)` (handler-pair overload): the source
guards with `if (this.value.current)` — a JavaScript truthiness test on the
stored value, `undefined` being falsy — calling `onPresent?.(current)` on
the truthy branch and `onAbsent?.()` otherwise. `truthy` is the host
language's coercion of a defined value of type `α` to boolean. -/
def cvUnwrapCurrentWith (truthy : α → Bool) (s : CacheValueState α) :
    (CacheValueState α × List SlotEvent) × UnwrapCall α :=
  ((s, []),
   match s.current with
   | some v => if truthy v then UnwrapCall.present v else UnwrapCall.absent
   | none => UnwrapCall.absent)

/-- Method `unwrapPrevious(handlers)` (handler-pair overload), same truthy
guard on `this.value.previous`. -/
def cvUnwrapPreviousWith (truthy : α → Bool) (s : CacheValueState α) :
    (CacheValueState α × List SlotEvent) × UnwrapCall α :=
  ((s, []),
   match s.previous with
   | some v => if truthy v then UnwrapCall.present v else UnwrapCall.absent
   | none => UnwrapCall.absent)

/-- JavaScript values as stored by a `CacheIt` cache of primitives, with
the standard truthiness coercion (`0`, `""`, `false`, `null` are falsy). -/
inductive JSValue where
  | num (n : Int)
  | str (s : String)
  | bool (b : Bool)
  | obj (id : Nat)
  | nullV
deriving DecidableEq, Repr

/-- JavaScript truthiness of a defined value. -/
def jsTruthy : JSValue → Bool
  | JSValue.num n => n ≠ 0
  | JSValue.str s => s ≠ ""
  | JSValue.bool b => b
  | JSValue.obj _ => true
  | JSValue.nullV => false

/-
  Heap model for aliasing and deep-clone behaviour.

  A runtime value is a primitive or a reference to a heap object; the heap
  maps addresses to the object's (deep) content, abstracted as an integer.
  `lodash.cloneDeep` copies the content to a fresh address, so writes
  through the original address never reach the clone and conversely.
  Assigning through a reference held by two parties is `mutateAddr`.
-/

/-- A JavaScript runtime value: primitives satisfy
`typeof v !== 'object' || v == null`, references are composite objects. -/
inductive JsVal where
  | prim (n : Int)
  | ref (addr : Nat)
deriving DecidableEq, Repr

/-- Heap: contents of every address, plus the next fresh address. -/
structure Heap where
  data : Nat → Int
  next : Nat

/-- In-place mutation of the object at address `a` (what a caller does to
an object it holds a reference to). -/
def mutateAddr (h : Heap) (a : Nat) (c : Int) : Heap :=
  { h with data := fun x => if x = a then c else h.data x }

/-- `lodash.cloneDeep` applied by `update` to composite values only: a
reference gets a fresh address carrying the same deep content; primitives
(and `undefined`, modelled by `none` at the call sites) pass through. -/
def cloneDeepVal (h : Heap) (v : JsVal) : Heap × JsVal :=
  match v with
  | JsVal.prim n => (h, JsVal.prim n)
  | JsVal.ref a =>
      ({ data := fun x => if x = h.next then h.data a else h.data x,
         next := h.next + 1 },
       JsVal.ref h.next)

/-- The guarded clone in `update`:
`typeof v === 'object' && v != null ? cloneDeep(v) : v`, with `undefined`
(`none`) falling through untouched. -/
def cloneDeepOpt (h : Heap) (v : Option JsVal) : Heap × Option JsVal :=
  match v with
  | none => (h, none)
  | some w =>
      let r := cloneDeepVal h w
      (r.1, some r.2)

/-- The `value` descriptor of a slot in the heap model. -/
structure HDesc where
  current : Option JsVal
  previous : Option JsVal
deriving DecidableEq, Repr

/-- Method `update(value)` in the heap model: `oldValue` is a clone of the
stored `current`, `newValue` a clone of the argument; then
`previous := oldValue; current := newValue`. -/
def hUpdate (h : Heap) (d : HDesc) (v : Option JsVal) : Heap × HDesc :=
  let old := cloneDeepOpt h d.current
  let new := cloneDeepOpt old.1 v
  (new.1, { current := new.2, previous := old.2 })

/-- Method `unwrapCurrent()` in the heap model: returns
`this.value.current` itself — the stored reference, with no clone. -/
def hUnwrapCurrent (d : HDesc) : Option JsVal := d.current

/-- Deep content observed by reading a value in a heap. -/
def readVal (h : Heap) (v : JsVal) : Int :=
  match v with
  | JsVal.prim n => n
  | JsVal.ref a => h.data a

/-- Deep content observed through an optional value. -/
def readOpt (h : Heap) (v : Option JsVal) : Option Int :=
  v.map (readVal h)

/-
  Cache model (`CacheIt<T>`).

  The cache maps string keys to slot instances. To speak about slot
  identity (claims about replacement and detached slots) every slot ever
  created is kept in a slot store keyed by a fresh numeric id; the cache's
  `Map<string, CacheValue>` becomes an association list from keys to ids.
  Observer callbacks fired by an operation are returned as a list of
  `Ev` values in invocation order, a slot's callbacks tagged with its id.
-/

/-- An observer callback fired during a cache-model operation. -/
inductive Ev where
  | cacheNote (tok : Nat)
  | slotNext (id : Nat) (tok : Nat)
  | slotComplete (id : Nat) (tok : Nat)
deriving DecidableEq, Repr

/-- Tags a slot's own event with the slot's id. -/
def tagSlot (id : Nat) : SlotEvent → Ev
  | SlotEvent.next tok => Ev.slotNext id tok
  | SlotEvent.complete tok => Ev.slotComplete id tok

/-- The slot id an event belongs to, if it is a slot event. -/
def evSlotId : Ev → Option Nat
  | Ev.cacheNote _ => none
  | Ev.slotNext id _ => some id
  | Ev.slotComplete id _ => some id

/-- State of a `CacheIt<T>` instance together with the store of every slot
it ever created. `entries` is the `cache` map (key to slot id, insertion
order kept as JavaScript `Map` does); `cacheSubs` is the cache-level
`subscribers` map, holding only tokens since a cache handler is a bare
callback. -/
structure CacheItState (α : Type) where
  slots : List (Nat × CacheValueState α)
  nextSlotId : Nat
  entries : List (String × Nat)
  cacheSubs : List Nat
  nextCacheToken : Nat
deriving DecidableEq, Repr

/-- A fresh empty cache. -/
def mkCacheIt (α : Type) : CacheItState α :=
  { slots := [], nextSlotId := 0, entries := [], cacheSubs := [], nextCacheToken := 0 }

/-- Lookup a slot by id in the slot store. -/
def lookupSlot (s : CacheItState α) (id : Nat) : Option (CacheValueState α) :=
  (s.slots.find? fun p => p.1 = id).map Prod.snd

/-- Replace the stored state of slot `id`. -/
def writeSlot (s : CacheItState α) (id : Nat) (slot : CacheValueState α) :
    CacheItState α :=
  { s with slots := s.slots.map fun p => if p.1 = id then (id, slot) else p }

/-- JavaScript `Map.set`: replace in place when the key exists (insertion
order preserved), append otherwise. -/
def entriesSet (es : List (String × Nat)) (k : String) (id : Nat) :
    List (String × Nat) :=
  if es.any fun p => p.1 = k then
    es.map fun p => if p.1 = k then (k, id) else p
  else
    es ++ [(k, id)]

/-- Lookup in the `cache` map. -/
def entriesGet (es : List (String × Nat)) (k : String) : Option Nat :=
  (es.find? fun p => p.1 = k).map Prod.snd

/-- Callbacks fired by `CacheIt.notifySubscribers`: every cache handler in
insertion order. -/
def cacheNotify (s : CacheItState α) : List Ev :=
  s.cacheSubs.map Ev.cacheNote

/-- Method `CacheIt.set(key, value, ttl?)`: constructs a brand-new
`CacheValue(ttl)`, immediately calls `update(value)` on it (no subscribers
exist yet, so its notification pass is empty but is still part of the
event stream), stores it in the map at `key` — a hard replace of any
existing entry — then notifies cache-level subscribers. Returns the new
slot's id. -/
def cacheSet (s : CacheItState α) (key : String) (v : α) (ttl : Option Nat) :
    CacheItState α × Nat × List Ev :=
  let id := s.nextSlotId
  let r := cvUpdate (mkCacheValue α ttl) (some v)
  let s1 : CacheItState α :=
    { s with slots := s.slots ++ [(id, r.1)],
             nextSlotId := id + 1,
             entries := entriesSet s.entries key id }
  (s1, id, r.2.map (tagSlot id) ++ cacheNotify s)

/-- Method `CacheIt.get(key)`: the slot id stored at `key`, if any; the
cache state is untouched and nothing is fired. -/
def cacheGet (s : CacheItState α) (key : String) : Option Nat :=
  entriesGet s.entries key

/-- Method `CacheIt.delete(key)`: removes the map entry; notifies
cache-level subscribers only when an entry was actually removed. The slot
itself — its subscribers and pending timer — is not touched. -/
def cacheDelete (s : CacheItState α) (key : String) :
    CacheItState α × Bool × List Ev :=
  if s.entries.any fun p => p.1 = key then
    ({ s with entries := s.entries.filter fun p => p.1 ≠ key }, true, cacheNotify s)
  else
    (s, false, [])

/-- Method `CacheIt.clear()`: empties the map unconditionally and always
notifies cache-level subscribers; slots are not touched. -/
def cacheClear (s : CacheItState α) : CacheItState α × List Ev :=
  ({ s with entries := [] }, cacheNotify s)

/-- Method `CacheIt.size()`. -/
def cacheSize (s : CacheItState α) : Nat :=
  s.entries.length

/-- Method `CacheIt.has(key)`. -/
def cacheHas (s : CacheItState α) : String → Bool :=
  fun key => s.entries.any fun p => p.1 = key

/-- Method `CacheIt.subscribe(handler)`: registers the bare handler under a
fresh token and returns the token. -/
def cacheSubscribe (s : CacheItState α) : CacheItState α × Nat :=
  ({ s with cacheSubs := s.cacheSubs ++ [s.nextCacheToken],
            nextCacheToken := s.nextCacheToken + 1 },
   s.nextCacheToken)

/-- The `unsubscribe` closure of a cache-level subscription: deletes the
token from the map — nothing is invoked (cache handlers have no completion
callback). -/
def cacheUnsubscribe (s : CacheItState α) (tok : Nat) : CacheItState α :=
  { s with cacheSubs := s.cacheSubs.filter fun t => t ≠ tok }

/-- Calling `subscribe(handlers)` on the slot stored under id `id` (a slot
obtained from `set`/`get`). Returns the new subscription's token. -/
def slotSubscribeAt (s : CacheItState α) (id : Nat) (h : SubHandlers) :
    CacheItState α × Option Nat :=
  match lookupSlot s id with
  | none => (s, none)
  | some slot =>
      let r := cvSubscribe slot h
      (writeSlot s id r.1, some r.2)

/-- Calling `update(v)` on the slot stored under id `id`. -/
def slotUpdateAt (s : CacheItState α) (id : Nat) (v : Option α) :
    CacheItState α × List Ev :=
  match lookupSlot s id with
  | none => (s, [])
  | some slot =>
      let r := cvUpdate slot v
      (writeSlot s id r.1, r.2.map (tagSlot id))

/-- The TTL timer callback of the slot stored under id `id` going off:
the callback closure holds the slot itself, so it runs against the slot
whether or not any cache still references it. -/
def fireTtlAt (s : CacheItState α) (id : Nat) : CacheItState α × List Ev :=
  match lookupSlot s id with
  | none => (s, [])
  | some slot =>
      let r := cvFireTtl slot
      (writeSlot s id r.1, r.2.map (tagSlot id))

/-
  Mutating-operation sequences on a cache, for the notification-count
  property: `set`, `delete`, `clear` in any order, with the events fired
  by each call concatenated in order.
-/

/-- One mutating call of the cache API. -/
inductive CacheOp (α : Type) where
  | setOp (k : String) (v : α) (ttl : Option Nat)
  | delOp (k : String)
  | clrOp
deriving DecidableEq, Repr

/-- Applies one mutating call, yielding the new state and the callbacks it
fired. -/
def applyOp (s : CacheItState α) : CacheOp α → CacheItState α × List Ev
  | CacheOp.setOp k v ttl =>
      let r := cacheSet s k v ttl
      (r.1, r.2.2)
  | CacheOp.delOp k =>
      let r := cacheDelete s k
      (r.1, r.2.2)
  | CacheOp.clrOp =>
      let r := cacheClear s
      (r.1, r.2)

/-- Runs a sequence of mutating calls, collecting every callback fired. -/
def runOps : CacheItState α → List (CacheOp α) → CacheItState α × List Ev
  | s, [] => (s, [])
  | s, op :: rest =>
      let r := applyOp s op
      let r2 := runOps r.1 rest
      (r2.1, r.2 ++ r2.2)

/-- Whether a mutating call notifies cache subscribers: `set` and `clear`
always do, `delete` only when the key is present. -/
def opFires (s : CacheItState α) : CacheOp α → Bool
  | CacheOp.delOp k => s.entries.any fun p => p.1 = k
  | _ => true

/-- Checks that every `delete` in the sequence hits a present key — i.e.
every call in the sequence is a mutating call that actually fires (a `set`
and a `clear` always do). -/
def okRun : CacheItState α → List (CacheOp α) → Bool
  | _, [] => true
  | s, op :: rest => opFires s op && okRun (applyOp s op).1 rest

/-
  Exception model for notification passes.

  `Map.forEach` has no exception handling in the source: a throwing handler
  aborts the iteration and the exception propagates out of the mutating
  call. A slot handler is modelled by whether a `next` callback is present
  and whether, when invoked in this pass, it throws; a cache handler is a
  bare callback, modelled by its throw flag alone. A pass returns the
  tokens whose callbacks were invoked (the throwing one included: it ran
  and then threw) and whether the pass ended in an exception.
-/

/-- A per-slot `next` handler as seen by a notification pass. -/
structure NHandler where
  hasNext : Bool
  throwsOnNext : Bool
deriving DecidableEq, Repr

/-- The `next` notification pass over the subscriber map with exception
propagation: handlers in insertion order; a missing `next` is skipped by
`next?.`; a throw stops the pass. -/
def notifyNextThrow : List (Nat × NHandler) → List Nat × Bool
  | [] => ([], false)
  | p :: rest =>
      if p.2.hasNext then
        if p.2.throwsOnNext then ([p.1], true)
        else
          let r := notifyNextThrow rest
          (p.1 :: r.1, r.2)
      else notifyNextThrow rest

/-- Cache-level notification pass with exception propagation: each entry is
a bare handler, `true` meaning it throws when invoked in this pass. -/
def cacheNotifyThrow : List (Nat × Bool) → List Nat × Bool
  | [] => ([], false)
  | p :: rest =>
      if p.2 then ([p.1], true)
      else
        let r := cacheNotifyThrow rest
        (p.1 :: r.1, r.2)

/-- A slot, with its subscribers seen through the exception model. -/
structure ThrowSlot (α : Type) where
  current : Option α
  previous : Option α
  subscribers : List (Nat × NHandler)
deriving DecidableEq, Repr

/-- Method `update(v)` under the exception model: the two assignments to
`this.value` happen before `notifySubscribers()`, so they persist even when
a handler throws; the subscriber map is never written by the pass. -/
def tUpdate (s : ThrowSlot α) (v : Option α) : ThrowSlot α × List Nat × Bool :=
  let s1 : ThrowSlot α := { s with previous := s.current, current := v }
  let r := notifyNextThrow s1.subscribers
  (s1, r.1, r.2)

/-- Tokens a prefix of handlers would have their `next` invoked on. -/
def calledTokens (hs : List (Nat × NHandler)) : List Nat :=
  hs.filterMap fun p => if p.2.hasNext then some p.1 else none

/-- Well-formedness of the slot store: every stored slot id was allocated
below the allocation counter. Holds for every state reachable from
`mkCacheIt` since `cacheSet` is the only allocator. -/
def slotIdsOk (s : CacheItState α) : Prop :=
  ∀ p ∈ s.slots, p.1 < s.nextSlotId

/-
  Helper lemmas.
-/

/-- Every event produced by a notification pass carries the token of some
subscriber in the registry it ran over. -/
theorem mem_notifyEvents {b : Bool} {subs : List (Nat × SubHandlers)} {e : SlotEvent}
    (he : e ∈ notifyEvents b subs) :
    ∃ p ∈ subs, e = SlotEvent.next p.1 ∨ e = SlotEvent.complete p.1 := by
  unfold notifyEvents at he
  rcases List.mem_filterMap.mp he with ⟨p, hp, hf⟩
  refine ⟨p, hp, ?_⟩
  cases b <;> cases hn : p.2.hasNext <;> cases hc : p.2.hasComplete <;>
    simp [hn, hc] at hf <;> simp [← hf]

/-- Claim C5, counterexample: the claimed invariant says that after the
most recent `clear`, `previous` holds the value that was `current`
immediately before it; but on a slot holding `1`, `clear()` leaves
`previous` absent, not `1`. -/
theorem c5_clear_previous_counterexample :
    ((cvUpdate (mkCacheValue Int none) (some 1)).1.current = some 1) ∧
      ¬ ((cvClear (cvUpdate (mkCacheValue Int none) (some 1)).1).1.previous = some 1) := by
  decide

/-- Claim C5 (amended): `previous` holds the value that was `current`
immediately before the most recent `update`; `clear` instead resets both
`current` and `previous` to absent. In particular after `update a` then
`update b`, `unwrapPrevious()` equals `a` and `unwrapCurrent()` equals
`b`, and before any update both are absent. -/
theorem c5_history_amended {α : Type} (s : CacheValueState α) (v : Option α)
    (a b : α) (ttl : Option Nat) :
    ((cvUpdate s v).1.previous = s.current) ∧
    ((cvUpdate s v).1.current = v) ∧
    ((cvClear s).1.previous = none) ∧
    ((cvClear s).1.current = none) ∧
    ((cvUnwrapPrevious (cvUpdate (cvUpdate (mkCacheValue α ttl) (some a)).1 (some b)).1).2
       = some a) ∧
    ((cvUnwrapCurrent (cvUpdate (cvUpdate (mkCacheValue α ttl) (some a)).1 (some b)).1).2
       = some b) ∧
    ((cvUnwrapCurrent (mkCacheValue α ttl)).2 = none) ∧
    ((cvUnwrapPrevious (mkCacheValue α ttl)).2 = none) :=
  ⟨rfl, rfl, rfl, rfl, rfl, rfl, rfl, rfl⟩

/-- Claim C2: the handler form guards presence with JavaScript truthiness
(`if (this.value.current)`), so a slot whose current value is the defined
number `0`, the empty string, or `false` invokes `onAbsent`, while the
claim (and the library's promise to cache any value) requires `onPresent`.
This theorem evaluates the embedded code at the failing inputs: each value
is stored (`current` is defined), yet the handler dispatch is `absent`;
the same truthy guard misreports `previous`. -/
theorem c2_truthy_presence_bug :
    ((cvUpdate (mkCacheValue JSValue none) (some (JSValue.num 0))).1.current
        = some (JSValue.num 0)) ∧
    ((cvUnwrapCurrentWith jsTruthy
        (cvUpdate (mkCacheValue JSValue none) (some (JSValue.num 0))).1).2
        = UnwrapCall.absent) ∧
    ((cvUnwrapCurrentWith jsTruthy
        (cvUpdate (mkCacheValue JSValue none) (some (JSValue.str ""))).1).2
        = UnwrapCall.absent) ∧
    ((cvUnwrapCurrentWith jsTruthy
        (cvUpdate (mkCacheValue JSValue none) (some (JSValue.bool false))).1).2
        = UnwrapCall.absent) ∧
    ((cvUnwrapCurrentWith jsTruthy
        (cvUpdate (mkCacheValue JSValue none) (some (JSValue.num 7))).1).2
        = UnwrapCall.present (JSValue.num 7)) ∧
    ((cvUnwrapPreviousWith jsTruthy
        (cvUpdate (cvUpdate (mkCacheValue JSValue none) (some (JSValue.num 0))).1
          (some (JSValue.num 1))).1).2
        = UnwrapCall.absent) := by
  decide

/-- Claim C10: both call shapes of `unwrapCurrent` and `unwrapPrevious`
leave the slot state (current, previous, subscribers, timer) exactly as it
was and fire no notifications. -/
theorem c10_unwrap_frame {α : Type} (truthy : α → Bool) (s : CacheValueState α) :
    ((cvUnwrapCurrent s).1.1 = s) ∧ ((cvUnwrapCurrent s).1.2 = []) ∧
    ((cvUnwrapPrevious s).1.1 = s) ∧ ((cvUnwrapPrevious s).1.2 = []) ∧
    ((cvUnwrapCurrentWith truthy s).1.1 = s) ∧
    ((cvUnwrapCurrentWith truthy s).1.2 = []) ∧
    ((cvUnwrapPreviousWith truthy s).1.1 = s) ∧
    ((cvUnwrapPreviousWith truthy s).1.2 = []) :=
  ⟨rfl, rfl, rfl, rfl, rfl, rfl, rfl, rfl⟩

/-- Claim C4, counterexample: the claim says the expiry callback performs
`slot.clear()`, leaving both `unwrapCurrent()` and `unwrapPrevious()`
absent. On a slot created with a TTL and updated to `1`, firing the timer
leaves `unwrapPrevious()` returning `1`, not absent: the callback body is
`this.update(undefined)`, not `this.clear()`. -/
theorem c4_ttl_clear_counterexample :
    (cvUnwrapPrevious
        (cvFireTtl (cvUpdate (mkCacheValue Int (some 100)) (some 1)).1).1).2 ≠ none := by
  decide

/-- Filtering a list twice with the same predicate is the same as
filtering once. -/
theorem filter_self_idem {γ : Type} (p : γ → Bool) (l : List γ) :
    (l.filter p).filter p = l.filter p := by
  induction l with
  | nil => rfl
  | cons a t ih => by_cases hpa : p a <;> simp [hpa, ih]

/-- A pair surviving the token-removal filter does not carry the removed
token. -/
theorem mem_filter_ne_token {γ : Type} {l : List (Nat × γ)} {tok : Nat} {p : Nat × γ}
    (hp : p ∈ l.filter fun q => q.1 ≠ tok) : p.1 ≠ tok := by
  have := (List.mem_filter.mp hp).2
  simpa using this

/-- A notification pass over a registry with no entry for a token fires
nothing addressed to that token. -/
theorem notify_no_token {subs : List (Nat × SubHandlers)} {tok : Nat}
    (hall : ∀ p ∈ subs, p.1 ≠ tok) {b : Bool} {e : SlotEvent}
    (he : e ∈ notifyEvents b subs) :
    e ≠ SlotEvent.next tok ∧ e ≠ SlotEvent.complete tok := by
  rcases mem_notifyEvents he with ⟨p, hp, hor⟩
  have hne := hall p hp
  rcases hor with rfl | rfl <;> simp [hne]

/-- Claim C3, counterexample: the claim says a second `unsubscribe()` does
not fire the subscriber's completion callback again; but the `unsubscribe`
closure calls `complete?.()` unconditionally before deleting the token, so
on a slot subscription with a `complete` handler, both the first and the
second call fire it. -/
theorem c3_double_complete_counterexample :
    ((cvUnsubscribe (cvSubscribe (mkCacheValue Int none) ⟨false, true⟩).1
          ⟨false, true⟩ (cvSubscribe (mkCacheValue Int none) ⟨false, true⟩).2).2
        = [SlotEvent.complete 0]) ∧
    ((cvUnsubscribe
          (cvUnsubscribe (cvSubscribe (mkCacheValue Int none) ⟨false, true⟩).1
              ⟨false, true⟩ (cvSubscribe (mkCacheValue Int none) ⟨false, true⟩).2).1
          ⟨false, true⟩ (cvSubscribe (mkCacheValue Int none) ⟨false, true⟩).2).2
        ≠ []) := by
  decide

/-- Claim C3 (amended): after `subscription.unsubscribe()` on a slot,
further mutations (`update`, `clear`) never fire that subscriber's
callbacks again, and a second `unsubscribe()` does not throw and leaves
the registry unchanged — but at slot level it invokes the captured
`complete` callback again (completion fires once per `unsubscribe()` call,
not once per cancelled subscription); a cache-level `unsubscribe()` is
fully idempotent since cache handlers have no completion callback. -/
theorem c3_unsubscribe_amended {α : Type} (s s1 s2 : CacheValueState α)
    (h : SubHandlers) (tok : Nat) (ev1 : List SlotEvent) (v : Option α)
    (_hsub : cvSubscribe s h = (s1, tok))
    (huns : cvUnsubscribe s1 h tok = (s2, ev1)) :
    (∀ p ∈ s2.subscribers, p.1 ≠ tok) ∧
    (∀ e ∈ (cvUpdate s2 v).2,
        e ≠ SlotEvent.next tok ∧ e ≠ SlotEvent.complete tok) ∧
    (∀ e ∈ (cvClear s2).2,
        e ≠ SlotEvent.next tok ∧ e ≠ SlotEvent.complete tok) ∧
    (cvUnsubscribe s2 h tok = (s2, ev1)) ∧
    (ev1 = if h.hasComplete then [SlotEvent.complete tok] else []) ∧
    (∀ (c : CacheItState α) (t : Nat),
        cacheUnsubscribe (cacheUnsubscribe c t) t = cacheUnsubscribe c t) := by
  have hs2 : s2 = { s1 with subscribers := s1.subscribers.filter fun p => p.1 ≠ tok } := by
    have := congrArg Prod.fst huns
    simpa [cvUnsubscribe] using this.symm
  have hev : ev1 = if h.hasComplete then [SlotEvent.complete tok] else [] := by
    have := congrArg Prod.snd huns
    simpa [cvUnsubscribe] using this.symm
  have hall : ∀ p ∈ s2.subscribers, p.1 ≠ tok := by
    intro p hp
    rw [hs2] at hp
    exact mem_filter_ne_token hp
  refine ⟨hall, ?_, ?_, ?_, hev, ?_⟩
  · intro e he
    exact notify_no_token hall he
  · intro e he
    exact notify_no_token hall he
  · rw [hs2]
    simp [cvUnsubscribe, filter_self_idem, hev]
  · intro c t
    simp [cacheUnsubscribe, filter_self_idem]

/-- Claim C3, witness: the amended theorem applied to a fresh slot and a
subscriber carrying both callbacks. -/
theorem c3_unsubscribe_amended_witness :
    cvUnsubscribe
        (cvUnsubscribe (cvSubscribe (mkCacheValue Int none) ⟨true, true⟩).1
            ⟨true, true⟩ (cvSubscribe (mkCacheValue Int none) ⟨true, true⟩).2).1
        ⟨true, true⟩ (cvSubscribe (mkCacheValue Int none) ⟨true, true⟩).2
      = ((cvUnsubscribe (cvSubscribe (mkCacheValue Int none) ⟨true, true⟩).1
            ⟨true, true⟩ (cvSubscribe (mkCacheValue Int none) ⟨true, true⟩).2).1,
         (cvUnsubscribe (cvSubscribe (mkCacheValue Int none) ⟨true, true⟩).1
            ⟨true, true⟩ (cvSubscribe (mkCacheValue Int none) ⟨true, true⟩).2).2) :=
  (c3_unsubscribe_amended (mkCacheValue Int none) _ _ ⟨true, true⟩ _ _ (some 2)
      rfl rfl).2.2.2.1

/-- A slot-level notification pass walks past handlers that do not throw,
invoking each present `next` callback, and continues into the rest of the
registry. -/
theorem notifyNextThrow_no_throw_append (pre rest : List (Nat × NHandler))
    (hpre : ∀ p ∈ pre, ¬(p.2.hasNext = true ∧ p.2.throwsOnNext = true)) :
    notifyNextThrow (pre ++ rest)
      = (calledTokens pre ++ (notifyNextThrow rest).1, (notifyNextThrow rest).2) := by
  induction pre with
  | nil => simp [calledTokens]
  | cons q t ih =>
      have hq := hpre q (by simp)
      have ht : ∀ p ∈ t, ¬(p.2.hasNext = true ∧ p.2.throwsOnNext = true) :=
        fun p hp => hpre p (by simp [hp])
      by_cases hn : q.2.hasNext
      · have hth : q.2.throwsOnNext = false := by
          cases hqt : q.2.throwsOnNext
          · rfl
          · exact absurd ⟨hn, hqt⟩ hq
        simp [notifyNextThrow, hn, hth, calledTokens, ih ht]
      · have hn' : q.2.hasNext = false := by
          cases hqt : q.2.hasNext
          · rfl
          · exact absurd hqt hn
        simp [notifyNextThrow, hn', calledTokens, ih ht]

/-- A cache-level notification pass invokes every handler before the first
throwing one, then that handler, then stops. -/
theorem cacheNotifyThrow_first_throw (cpre cpost : List (Nat × Bool)) (ct : Nat)
    (hpre : ∀ q ∈ cpre, q.2 = false) :
    cacheNotifyThrow (cpre ++ (ct, true) :: cpost)
      = (cpre.map Prod.fst ++ [ct], true) := by
  induction cpre with
  | nil => simp [cacheNotifyThrow]
  | cons q t ih =>
      have hq := hpre q (by simp)
      have ht : ∀ p ∈ t, p.2 = false := fun p hp => hpre p (by simp [hp])
      simp [cacheNotifyThrow, hq, ih ht]

/-- Claim C6, counterexample: the claim says one throwing handler does not
prevent the remaining handlers of the same pass from running; but with two
subscribers whose `next` callbacks are both present, the first of which
throws, the pass triggered by `update` invokes only token 0 — token 1 is
never invoked, because `Map.forEach` has no per-handler isolation and the
exception aborts the iteration. -/
theorem c6_throw_counterexample :
    ((tUpdate (⟨some 1, none, [(0, ⟨true, true⟩), (1, ⟨true, false⟩)]⟩ : ThrowSlot Int)
        (some 2)).2.1 = [0]) ∧
    (1 ∉ (tUpdate (⟨some 1, none, [(0, ⟨true, true⟩), (1, ⟨true, false⟩)]⟩ : ThrowSlot Int)
        (some 2)).2.1) ∧
    ((tUpdate (⟨some 1, none, [(0, ⟨true, true⟩), (1, ⟨true, false⟩)]⟩ : ThrowSlot Int)
        (some 2)).2.2 = true) := by
  decide

/-- Claim C6 (amended): an exception thrown by a handler aborts the
notification pass — handlers after the throwing one are not invoked and
the exception propagates out of the mutating call — but the subscriber
registry is not corrupted: the registry and the already-applied value
mutation are exactly as the mutator left them. The same holds for the
cache-level pass. -/
theorem c6_throw_amended {α : Type} (s : ThrowSlot α) (v : Option α)
    (pre post : List (Nat × NHandler)) (t : Nat) (h : NHandler)
    (hsubs : s.subscribers = pre ++ (t, h) :: post)
    (hpre : ∀ p ∈ pre, ¬(p.2.hasNext = true ∧ p.2.throwsOnNext = true))
    (hn : h.hasNext = true) (hth : h.throwsOnNext = true) :
    ((tUpdate s v).2.2 = true) ∧
    ((tUpdate s v).2.1 = calledTokens pre ++ [t]) ∧
    ((tUpdate s v).1.subscribers = s.subscribers) ∧
    ((tUpdate s v).1.current = v) ∧
    ((tUpdate s v).1.previous = s.current) ∧
    (∀ (cpre cpost : List (Nat × Bool)) (ct : Nat),
        (∀ q ∈ cpre, q.2 = false) →
        cacheNotifyThrow (cpre ++ (ct, true) :: cpost)
          = (cpre.map Prod.fst ++ [ct], true)) := by
  have hrun : notifyNextThrow s.subscribers = (calledTokens pre ++ [t], true) := by
    rw [hsubs, notifyNextThrow_no_throw_append pre ((t, h) :: post) hpre]
    simp [notifyNextThrow, hn, hth]
  refine ⟨?_, ?_, rfl, rfl, rfl, ?_⟩
  · simp [tUpdate, hrun]
  · simp [tUpdate, hrun]
  · intro cpre cpost ct hc
    exact cacheNotifyThrow_first_throw cpre cpost ct hc

/-- Claim C6, witness: the amended theorem applied to a slot with a
non-throwing subscriber, a throwing one, and a later one that the pass
never reaches. -/
theorem c6_throw_amended_witness :
    ((⟨true, true⟩ : NHandler).hasNext = true) ∧
    ((tUpdate (⟨some 1, none,
          [(0, ⟨true, false⟩), (1, ⟨true, true⟩), (2, ⟨true, false⟩)]⟩ : ThrowSlot Int)
        (some 2)).2.2 = true) :=
  ⟨rfl,
   (c6_throw_amended
      (⟨some 1, none,
          [(0, ⟨true, false⟩), (1, ⟨true, true⟩), (2, ⟨true, false⟩)]⟩ : ThrowSlot Int)
      (some 2) [(0, ⟨true, false⟩)] [(2, ⟨true, false⟩)] 1 ⟨true, true⟩
      rfl (by decide) rfl rfl).1⟩

/-- A mutating cache call never changes the cache-level subscriber
registry. -/
theorem applyOp_cacheSubs {α : Type} (s : CacheItState α) (op : CacheOp α) :
    (applyOp s op).1.cacheSubs = s.cacheSubs := by
  cases op with
  | setOp k v ttl => rfl
  | delOp k =>
      by_cases hk : (s.entries.any fun p => p.1 = k) = true <;>
        simp [applyOp, cacheDelete, hk]
  | clrOp => rfl

/-- A mutating cache call that fires notifies each cache subscriber
exactly once. -/
theorem applyOp_events_length {α : Type} (s : CacheItState α) (op : CacheOp α)
    (hok : opFires s op = true) :
    (applyOp s op).2.length = s.cacheSubs.length := by
  cases op with
  | setOp k v ttl =>
      simp [applyOp, cacheSet, cvUpdate, mkCacheValue, notifyEvents, cacheNotify]
  | delOp k =>
      have hk : (s.entries.any fun p => p.1 = k) = true := by
        simpa [opFires] using hok
      simp [applyOp, cacheDelete, hk, cacheNotify]
  | clrOp => simp [applyOp, cacheClear, cacheNotify]

/-- A sequence of mutating calls in which every `delete` succeeds fires
one notification per call per cache subscriber. -/
theorem runOps_length {α : Type} :
    ∀ (ops : List (CacheOp α)) (s : CacheItState α), okRun s ops = true →
      (runOps s ops).2.length = ops.length * s.cacheSubs.length := by
  intro ops
  induction ops with
  | nil => intro s _; simp [runOps]
  | cons op rest ih =>
      intro s hok
      rw [okRun, Bool.and_eq_true] at hok
      obtain ⟨h1, h2⟩ := hok
      have ha := applyOp_events_length s op h1
      have hb := ih ((applyOp s op).1) h2
      rw [applyOp_cacheSubs] at hb
      simp [runOps, List.length_append, ha, hb]
      ring

/-- Claim C7: with exactly one cache subscriber, N consecutive mutating
calls (`set`, successful `delete`, `clear`) fire exactly N cache-level
notifications; a `delete` of an absent key returns `false` and fires
nothing; `clear` fires one notification even on an already-empty cache. -/
theorem c7_notification_count {α : Type} (s : CacheItState α) (t : Nat)
    (ops : List (CacheOp α)) (k : String)
    (hsub : s.cacheSubs = [t]) (hok : okRun s ops = true) :
    ((runOps s ops).2.length = ops.length) ∧
    (cacheHas s k = false → cacheDelete s k = (s, false, [])) ∧
    (∀ (s2 : CacheItState α), s2.cacheSubs = [t] → s2.entries = [] →
        (cacheClear s2).2.length = 1) := by
  refine ⟨?_, ?_, ?_⟩
  · have hr := runOps_length ops s hok
    rw [hsub] at hr
    simpa using hr
  · intro hnot
    have hk : (s.entries.any fun p => p.1 = k) = false := by
      simpa [cacheHas] using hnot
    simp [cacheDelete, hk]
  · intro s2 h2 _
    simp [cacheClear, cacheNotify, h2]

/-- Claim C7, witness: a cache with one subscriber, run through a `set`, a
successful `delete`, and a `clear` — three notifications. -/
theorem c7_notification_count_witness :
    (okRun (cacheSubscribe (mkCacheIt Int)).1
        [CacheOp.setOp "k" 1 none, CacheOp.delOp "k", CacheOp.clrOp] = true) ∧
    ((runOps (cacheSubscribe (mkCacheIt Int)).1
        [CacheOp.setOp "k" 1 none, CacheOp.delOp "k", CacheOp.clrOp]).2.length = 3) :=
  ⟨by decide,
   (c7_notification_count (cacheSubscribe (mkCacheIt Int)).1 0
      [CacheOp.setOp "k" 1 none, CacheOp.delOp "k", CacheOp.clrOp] "x"
      rfl (by decide)).1⟩

/-- Claim C4 (amended): the timer is armed at construction exactly when a
TTL is supplied, and its callback performs `update(undefined)`: afterwards
`current` is absent but `previous` holds the value that was current when
the timer fired; the slot's observers receive a `next` notification; the
timer is spent after firing and a subsequent `update` neither rearms nor
extends it (`ttlPending` is untouched by `update`). -/
theorem c4_ttl_amended {α : Type} (s : CacheValueState α) (ttl : Option Nat)
    (v : Option α) :
    ((mkCacheValue α ttl).ttlPending = ttl.isSome) ∧
    ((cvFireTtl s).1.current = none) ∧
    ((cvFireTtl s).1.previous = s.current) ∧
    ((cvFireTtl s).2 = notifyEvents false s.subscribers) ∧
    ((cvFireTtl s).1.ttlPending = false) ∧
    ((cvFireTtl s).1.subscribers = s.subscribers) ∧
    ((cvUpdate s v).1.ttlPending = s.ttlPending) :=
  ⟨rfl, rfl, rfl, rfl, rfl, rfl, rfl⟩

/-- Appending an entry under a key absent from an association list makes
it the one `find?` returns. -/
theorem find?_append_fresh {β : Type} {l : List (Nat × β)} {id : Nat} {x : β}
    (h : ∀ p ∈ l, p.1 ≠ id) :
    (l ++ [(id, x)]).find? (fun p => p.1 = id) = some (id, x) := by
  rw [List.find?_append]
  have hl : l.find? (fun p => p.1 = id) = none :=
    List.find?_eq_none.mpr fun p hp => by simpa using h p hp
  rw [hl]
  simp

/-- Replacing the value under a key absent from an association list is the
identity. -/
theorem map_write_fresh {β : Type} {l : List (Nat × β)} {id : Nat} {x : β}
    (h : ∀ p ∈ l, p.1 ≠ id) :
    (l.map fun p => if p.1 = id then (id, x) else p) = l := by
  induction l with
  | nil => rfl
  | cons q t ih =>
      have hq : q.1 ≠ id := h q (by simp)
      simp [hq, ih fun p hp => h p (by simp [hp])]

/-- Replacing the value under a key that `find?` locates makes the new
pair the one `find?` returns. -/
theorem find?_map_write {β : Type} {l : List (Nat × β)} {id : Nat} {x : β}
    {y : Nat × β} (h : l.find? (fun p => p.1 = id) = some y) :
    (l.map fun p => if p.1 = id then (id, x) else p).find? (fun p => p.1 = id)
      = some (id, x) := by
  induction l with
  | nil => simp at h
  | cons q t ih =>
      by_cases hq : q.1 = id
      · simp only [List.map_cons, hq, if_pos rfl]
        exact List.find?_cons_of_pos _ (by simp)
      · rw [List.find?_cons_of_neg _ (by simpa using hq)] at h
        simp only [List.map_cons, if_neg hq]
        rw [List.find?_cons_of_neg _ (by simpa using hq)]
        exact ih h

/-- Writing a slot that is present in the store makes the written state
the one `lookupSlot` returns. -/
theorem lookupSlot_writeSlot {α : Type} {s : CacheItState α} {id : Nat}
    {y x : CacheValueState α} (h : lookupSlot s id = some y) :
    lookupSlot (writeSlot s id x) id = some x := by
  unfold lookupSlot at h
  rcases Option.map_eq_some'.mp h with ⟨q, hq, _⟩
  have hfind := find?_map_write (x := x) hq
  simp [lookupSlot, writeSlot, hfind]

/-- The key just written by `Map.set` maps to the written value. -/
theorem entriesGet_entriesSet (es : List (String × Nat)) (k : String) (id : Nat) :
    entriesGet (entriesSet es k id) k = some id := by
  unfold entriesGet entriesSet
  by_cases hk : (es.any fun p => p.1 = k) = true
  · rw [if_pos hk]
    induction es with
    | nil => simp at hk
    | cons q t ih =>
        by_cases hq : q.1 = k
        · simp only [List.map_cons, hq, if_pos rfl]
          rw [List.find?_cons_of_pos _ (by simp)]
          rfl
        · have ht : (t.any fun p => p.1 = k) = true := by
            rcases List.any_eq_true.mp hk with ⟨p, hp, hpk⟩
            rcases List.mem_cons.mp hp with rfl | hmem
            · exact absurd (by simpa using hpk) hq
            · exact List.any_eq_true.mpr ⟨p, hmem, hpk⟩
          simp only [List.map_cons, if_neg hq]
          rw [List.find?_cons_of_neg _ (by simpa using hq)]
          exact ih ht
  · rw [if_neg hk, List.find?_append]
    have hl : es.find? (fun p => p.1 = k) = none :=
      List.find?_eq_none.mpr fun p hp hpk =>
        hk (List.any_eq_true.mpr ⟨p, hp, hpk⟩)
    rw [hl]
    simp

/-- A slot event keeps the id of the slot it was tagged with. -/
theorem evSlotId_tagSlot (id : Nat) (e : SlotEvent) :
    evSlotId (tagSlot id e) = some id := by
  cases e <;> rfl

/-- Cloning never lowers the allocation pointer. -/
theorem cloneDeepOpt_next_ge (h : Heap) (v : Option JsVal) :
    h.next ≤ (cloneDeepOpt h v).1.next := by
  cases v with
  | none => simp [cloneDeepOpt]
  | some w => cases w <;> simp [cloneDeepOpt, cloneDeepVal]

/-- Claim C1, counterexample: the claim says mutating the object returned
by `unwrapCurrent()` does not change the slot's stored state. Store the
object at address 0 (content 5) in an empty slot: `update` deep-clones it
to address 1, and `unwrapCurrent()` returns the stored reference itself
(address 1, no clone on read). Mutating the returned object to content 7
changes what the slot's stored `current` reads to — from `some 5` to
`some 7`. -/
theorem c1_read_aliasing_counterexample :
    readOpt
        (mutateAddr
          (hUpdate ⟨fun x => if x = 0 then 5 else 0, 1⟩ ⟨none, none⟩
            (some (JsVal.ref 0))).1 1 7)
        (hUnwrapCurrent
          (hUpdate ⟨fun x => if x = 0 then 5 else 0, 1⟩ ⟨none, none⟩
            (some (JsVal.ref 0))).2)
      ≠
      readOpt
        (hUpdate ⟨fun x => if x = 0 then 5 else 0, 1⟩ ⟨none, none⟩
          (some (JsVal.ref 0))).1
        (hUnwrapCurrent
          (hUpdate ⟨fun x => if x = 0 then 5 else 0, 1⟩ ⟨none, none⟩
            (some (JsVal.ref 0))).2) := by
  decide

/-- Claim C1 (amended): `update` deep-clones composite values on write, so
mutating the caller's original object after storage never changes what the
slot's `current` reads to; but `unwrapCurrent()` returns the stored
reference itself (no clone on read), so mutating the returned object is
seen by the slot: writing content `c2` through the returned reference
makes the slot's stored `current` read `c2`. -/
theorem c1_isolation_amended (h : Heap) (d : HDesc) (a : Nat) (h2 : Heap)
    (d2 : HDesc) (ha : a < h.next)
    (hr : hUpdate h d (some (JsVal.ref a)) = (h2, d2)) :
    (∀ (c : Int), readOpt (mutateAddr h2 a c) d2.current = readOpt h2 d2.current) ∧
    (hUnwrapCurrent d2 = d2.current) ∧
    (∃ b, d2.current = some (JsVal.ref b) ∧
        ∀ (c2 : Int), readOpt (mutateAddr h2 b c2) d2.current = some c2) := by
  have hble : h.next ≤ (cloneDeepOpt h d.current).1.next :=
    cloneDeepOpt_next_ge h d.current
  have hd2 : d2.current = some (JsVal.ref (cloneDeepOpt h d.current).1.next) := by
    have hp := congrArg (fun x => x.2.current) hr
    simpa [hUpdate, cloneDeepVal] using hp.symm
  have hba : (cloneDeepOpt h d.current).1.next ≠ a := by omega
  refine ⟨?_, rfl, ?_⟩
  · intro c
    rw [hd2]
    simp [readOpt, readVal, mutateAddr, hba]
  · refine ⟨(cloneDeepOpt h d.current).1.next, hd2, ?_⟩
    intro c2
    rw [hd2]
    simp [readOpt, readVal, mutateAddr]

/-- Claim C1, witness: the amended theorem applied to a one-object heap,
reading back the unchanged content after a mutation of the caller's
original object. -/
theorem c1_isolation_amended_witness :
    (0 < (⟨fun x => if x = 0 then 5 else 0, 1⟩ : Heap).next) ∧
    (readOpt
        (mutateAddr
          (hUpdate ⟨fun x => if x = 0 then 5 else 0, 1⟩ ⟨none, none⟩
            (some (JsVal.ref 0))).1 0 9)
        (hUpdate ⟨fun x => if x = 0 then 5 else 0, 1⟩ ⟨none, none⟩
          (some (JsVal.ref 0))).2.current
      = readOpt
          (hUpdate ⟨fun x => if x = 0 then 5 else 0, 1⟩ ⟨none, none⟩
            (some (JsVal.ref 0))).1
          (hUpdate ⟨fun x => if x = 0 then 5 else 0, 1⟩ ⟨none, none⟩
            (some (JsVal.ref 0))).2.current) :=
  ⟨by decide,
   (c1_isolation_amended ⟨fun x => if x = 0 then 5 else 0, 1⟩ ⟨none, none⟩ 0 _ _
      (by decide) rfl).1 9⟩

/-- Claim C8: calling `cache.set(key, ...)` twice produces two distinct
slot instances — a hard replace of the map entry. The replaced slot (and
the subscriber registered on it) is left untouched: the second `set` fires
no slot event at all (in particular no completion for the replaced slot's
subscribers), the key maps to the new slot id afterwards, and every event
caused by an `update` on the new slot is tagged with the new slot's id, so
the first slot's subscribers never receive events from the second slot. -/
theorem c8_set_hard_replace {α : Type} (s s1 s2 s3 : CacheItState α) (key : String)
    (v1 v2 : α) (t1 t2 : Option Nat) (h : SubHandlers) (id1 id2 : Nat)
    (tok : Option Nat) (evs1 evs3 : List Ev)
    (hids : slotIdsOk s)
    (h1 : cacheSet s key v1 t1 = (s1, id1, evs1))
    (h2 : slotSubscribeAt s1 id1 h = (s2, tok))
    (h3 : cacheSet s2 key v2 t2 = (s3, id2, evs3)) :
    (id1 ≠ id2) ∧
    (lookupSlot s3 id1 = lookupSlot s2 id1) ∧
    (∀ e ∈ evs3, evSlotId e = none) ∧
    (entriesGet s3.entries key = some id2) ∧
    (∀ (v : α), ∀ e ∈ (slotUpdateAt s3 id2 (some v)).2, evSlotId e = some id2) := by
  have hid1 : id1 = s.nextSlotId := by
    have hp := congrArg (fun x => x.2.1) h1
    simpa [cacheSet] using hp.symm
  subst hid1
  have hfresh1 : ∀ p ∈ s.slots, p.1 ≠ s.nextSlotId :=
    fun p hp => Nat.ne_of_lt (hids p hp)
  have hs1slots : s1.slots
      = s.slots ++ [(s.nextSlotId, (cvUpdate (mkCacheValue α t1) (some v1)).1)] := by
    have hp := congrArg (fun x => x.1.slots) h1
    simpa [cacheSet] using hp.symm
  have hs1next : s1.nextSlotId = s.nextSlotId + 1 := by
    have hp := congrArg (fun x => x.1.nextSlotId) h1
    simpa [cacheSet] using hp.symm
  have hlk1 : lookupSlot s1 s.nextSlotId
      = some (cvUpdate (mkCacheValue α t1) (some v1)).1 := by
    unfold lookupSlot
    rw [hs1slots, find?_append_fresh hfresh1]
    rfl
  rw [slotSubscribeAt, hlk1] at h2
  have hs2 : s2 = writeSlot s1 s.nextSlotId
      (cvSubscribe (cvUpdate (mkCacheValue α t1) (some v1)).1 h).1 := by
    have hp := congrArg Prod.fst h2
    exact hp.symm
  have hs2slots : s2.slots
      = s.slots ++ [(s.nextSlotId,
          (cvSubscribe (cvUpdate (mkCacheValue α t1) (some v1)).1 h).1)] := by
    rw [hs2, writeSlot, hs1slots]
    simp [List.map_append, map_write_fresh hfresh1]
  have hs2next : s2.nextSlotId = s.nextSlotId + 1 := by
    rw [hs2, writeSlot]
    exact hs1next
  have hid2 : id2 = s.nextSlotId + 1 := by
    have hp := congrArg (fun x => x.2.1) h3
    rw [← hs2next]
    simpa [cacheSet] using hp.symm
  subst hid2
  have hfresh2 : ∀ p ∈ s2.slots, p.1 ≠ s.nextSlotId + 1 := by
    rw [hs2slots]
    intro p hp
    rcases List.mem_append.mp hp with hmem | hmem
    · have := hids p hmem
      omega
    · rcases List.mem_singleton.mp hmem with rfl
      omega
  have hs3slots : s3.slots
      = s2.slots ++ [(s.nextSlotId + 1, (cvUpdate (mkCacheValue α t2) (some v2)).1)] := by
    have hp := congrArg (fun x => x.1.slots) h3
    rw [← hs2next]
    simpa [cacheSet] using hp.symm
  have hs3entries : s3.entries = entriesSet s2.entries key (s.nextSlotId + 1) := by
    have hp := congrArg (fun x => x.1.entries) h3
    rw [← hs2next]
    simpa [cacheSet] using hp.symm
  have hev3 : evs3 = s2.cacheSubs.map Ev.cacheNote := by
    have hp := congrArg (fun x => x.2.2) h3
    simpa [cacheSet, cvUpdate, mkCacheValue, notifyEvents, cacheNotify] using hp.symm
  have hfind2 : s2.slots.find? (fun p => p.1 = s.nextSlotId)
      = some (s.nextSlotId,
          (cvSubscribe (cvUpdate (mkCacheValue α t1) (some v1)).1 h).1) := by
    rw [hs2slots]
    exact find?_append_fresh hfresh1
  have hlk2 : lookupSlot s2 s.nextSlotId
      = some (cvSubscribe (cvUpdate (mkCacheValue α t1) (some v1)).1 h).1 := by
    unfold lookupSlot
    rw [hfind2]
    rfl
  have hlk3 : lookupSlot s3 s.nextSlotId
      = some (cvSubscribe (cvUpdate (mkCacheValue α t1) (some v1)).1 h).1 := by
    unfold lookupSlot
    rw [hs3slots, List.find?_append, hfind2]
    rfl
  have hlkB : lookupSlot s3 (s.nextSlotId + 1)
      = some (cvUpdate (mkCacheValue α t2) (some v2)).1 := by
    unfold lookupSlot
    rw [hs3slots, find?_append_fresh hfresh2]
    rfl
  refine ⟨by omega, hlk3.trans hlk2.symm, ?_, ?_, ?_⟩
  · intro e he
    rw [hev3] at he
    rcases List.mem_map.mp he with ⟨u, _, rfl⟩
    rfl
  · rw [hs3entries]
    exact entriesGet_entriesSet _ _ _
  · intro v e he
    rw [slotUpdateAt, hlkB] at he
    rcases List.mem_map.mp he with ⟨u, _, rfl⟩
    exact evSlotId_tagSlot _ _

/-- Claim C8, witness: on a fresh cache, setting "k", subscribing to the
returned slot, and setting "k" again yields two distinct slot ids. -/
theorem c8_set_hard_replace_witness :
    slotIdsOk (mkCacheIt Int) ∧
    ((cacheSet (mkCacheIt Int) "k" 1 none).2.1
      ≠ (cacheSet
          (slotSubscribeAt (cacheSet (mkCacheIt Int) "k" 1 none).1
            (cacheSet (mkCacheIt Int) "k" 1 none).2.1 ⟨true, true⟩).1
          "k" 2 none).2.1) :=
  ⟨fun p hp => absurd hp (List.not_mem_nil p),
   (c8_set_hard_replace (mkCacheIt Int)
      (cacheSet (mkCacheIt Int) "k" 1 none).1
      (slotSubscribeAt (cacheSet (mkCacheIt Int) "k" 1 none).1
        (cacheSet (mkCacheIt Int) "k" 1 none).2.1 ⟨true, true⟩).1
      (cacheSet
        (slotSubscribeAt (cacheSet (mkCacheIt Int) "k" 1 none).1
          (cacheSet (mkCacheIt Int) "k" 1 none).2.1 ⟨true, true⟩).1
        "k" 2 none).1
      "k" 1 2 none none ⟨true, true⟩
      (cacheSet (mkCacheIt Int) "k" 1 none).2.1
      (cacheSet
        (slotSubscribeAt (cacheSet (mkCacheIt Int) "k" 1 none).1
          (cacheSet (mkCacheIt Int) "k" 1 none).2.1 ⟨true, true⟩).1
        "k" 2 none).2.1
      (slotSubscribeAt (cacheSet (mkCacheIt Int) "k" 1 none).1
        (cacheSet (mkCacheIt Int) "k" 1 none).2.1 ⟨true, true⟩).2
      (cacheSet (mkCacheIt Int) "k" 1 none).2.2
      (cacheSet
        (slotSubscribeAt (cacheSet (mkCacheIt Int) "k" 1 none).1
          (cacheSet (mkCacheIt Int) "k" 1 none).2.1 ⟨true, true⟩).1
        "k" 2 none).2.2
      (fun p hp => absurd hp (List.not_mem_nil p))
      rfl rfl rfl).1⟩

/-- Claim C9: `CacheIt.delete` and `CacheIt.clear` only remove map
entries. A deleted key's slot keeps its pending TTL timer and all of its
subscribers (no completion is fired); the still-pending timer later fires
against the detached slot, performing `update(undefined)` on it — `current`
becomes absent, `previous` receives the old current — and notifying the
slot's remaining subscribers. -/
theorem c9_detached_slot_timer {α : Type} (s : CacheItState α) (key : String)
    (id : Nat) (slot : CacheValueState α)
    (hget : entriesGet s.entries key = some id)
    (hslot : lookupSlot s id = some slot) :
    ((cacheDelete s key).2.1 = true) ∧
    (∀ e ∈ (cacheDelete s key).2.2, evSlotId e = none) ∧
    (lookupSlot (cacheDelete s key).1 id = some slot) ∧
    (lookupSlot (fireTtlAt (cacheDelete s key).1 id).1 id = some (cvFireTtl slot).1) ∧
    ((fireTtlAt (cacheDelete s key).1 id).2
        = (notifyEvents false slot.subscribers).map (tagSlot id)) ∧
    (lookupSlot (cacheClear s).1 id = some slot) ∧
    (∀ e ∈ (cacheClear s).2, evSlotId e = none) := by
  have hany : (s.entries.any fun p => p.1 = key) = true := by
    unfold entriesGet at hget
    rcases Option.map_eq_some'.mp hget with ⟨q, hq, _⟩
    have hqk : q.1 = key := by simpa using List.find?_some hq
    exact List.any_eq_true.mpr
      ⟨q, List.mem_of_find?_eq_some hq, by simpa using hqk⟩
  have hdel : cacheDelete s key
      = ({ s with entries := s.entries.filter fun p => p.1 ≠ key }, true, cacheNotify s) := by
    simp [cacheDelete, hany]
  have hdl : lookupSlot (cacheDelete s key).1 id = some slot := by
    rw [hdel]
    exact hslot
  refine ⟨by rw [hdel], ?_, hdl, ?_, ?_, hslot, ?_⟩
  · intro e he
    rw [hdel] at he
    rcases List.mem_map.mp he with ⟨t, _, rfl⟩
    rfl
  · rw [fireTtlAt, hdl]
    exact lookupSlot_writeSlot hdl
  · rw [fireTtlAt, hdl]
    rfl
  · intro e he
    rcases List.mem_map.mp he with ⟨t, _, rfl⟩
    rfl

/-- Claim C9, witness: a cache holding one slot with a pending TTL and one
slot subscriber; deleting the key succeeds while leaving the slot intact. -/
theorem c9_detached_slot_timer_witness :
    (entriesGet ((slotSubscribeAt (cacheSet (mkCacheIt Int) "k" 1 (some 50)).1 0
        ⟨true, false⟩).1).entries "k" = some 0) ∧
    (lookupSlot ((slotSubscribeAt (cacheSet (mkCacheIt Int) "k" 1 (some 50)).1 0
        ⟨true, false⟩).1) 0
      = some ⟨some 1, none, [(0, ⟨true, false⟩)], true, 1⟩) ∧
    ((cacheDelete ((slotSubscribeAt (cacheSet (mkCacheIt Int) "k" 1 (some 50)).1 0
        ⟨true, false⟩).1) "k").2.1 = true) :=
  ⟨by decide, by decide,
   (c9_detached_slot_timer
      ((slotSubscribeAt (cacheSet (mkCacheIt Int) "k" 1 (some 50)).1 0
        ⟨true, false⟩).1) "k" 0 ⟨some 1, none, [(0, ⟨true, false⟩)], true, 1⟩
      (by decide) (by decide)).1⟩

end CacheItModel
